import Mathlib

/-!
Verification of the self-draining buffer/dispatcher in src/main.go.

The Go program keeps a mutex-protected queue (`Buffer.data`), a boolean
`isSending` flag and a `sync.WaitGroup`.  `Add` appends an item under the
lock and, when `isSending` is false, sets it and spawns one `sendData`
goroutine (after `wg.Add(1)`).  Each `sendData` activation pops the head
item under the lock, calls `sendToAPI` outside the lock, then re-locks and
either clears `isSending` (queue empty) or spawns exactly one successor
activation; `wg.Done` runs on exit.

The embedding makes every lock-protected critical section one atomic
transition of a labeled transition system over `Buffer`:
`Buffer.Add` is the body of Go `Add` (main.go lines 59-68);
`sendDataStart` is the first critical section of `sendData` (lines 72-81,
including the deferred `wg.Done` of the empty-queue early return);
`sendDataFinish` is the second critical section together with the end of
the activation (lines 85-93 plus the deferred `wg.Done`).  Live
activations are tracked in the ghost field `acts`: `ActState.scheduled`
is a spawned goroutine that has not yet entered its first critical
section, `ActState.sending item` is an activation whose `sendToAPI item`
call is outstanding.  `delivered` is the ghost log of completed
`sendToAPI` invocations with their outcomes, and `enqueued` is the ghost
log of all `Add` calls, in lock-acquisition order.

`sendToAPI` itself (lines 96-137) is embedded as a pure function from an
`HttpExchange` — the oracle describing what the network did (request
construction error, transport error, body read error, HTTP status, JSON
decode success, decoded STATUS field) — to the `SendResult` it reports.
The request body construction (`url.Values.Encode` over the item's
key/value map) is embedded byte-faithfully in `queryEscape` and
`urlValuesEncode`.
-/

/-- Outcome classification of one `sendToAPI` call, one constructor per
early-return branch of main.go lines 103-136. -/
inductive SendResult : Type
  | requestBuildError
  | transportError
  | responseReadError
  | decodeError
  | nonSuccessStatus (code : Nat)
  | success
deriving DecidableEq

/-- Phase of one live drain activation (one `sendData` goroutine):
spawned but not yet in its first critical section, or with its
`sendToAPI item` call outstanding. -/
inductive ActState (α : Type) : Type
  | scheduled
  | sending (item : α)
deriving DecidableEq

/-- The Go `Buffer` struct (main.go lines 17-25) plus ghost state.
`data`, `url`, `token`, `isSending` are the struct fields; `wg` is the
WaitGroup counter; `acts` (ghost) lists the live `sendData` goroutines;
`delivered` (ghost) logs completed `sendToAPI` calls in order with their
outcomes; `enqueued` (ghost) logs all `Add`ed items in order.  The item
type is a parameter `α` (the Go item is a `map[string]string`, opaque to
the dispatcher). -/
structure Buffer (α : Type) : Type where
  data : List α
  url : String
  token : String
  isSending : Bool
  wg : Nat
  acts : List (ActState α)
  delivered : List (α × SendResult)
  enqueued : List α
deriving DecidableEq

/-- `NewBuffer` (main.go lines 47-56): empty queue, flag down, zero
WaitGroup counter. -/
def NewBuffer (α : Type) (apiURL tok : String) : Buffer α :=
  { data := [], url := apiURL, token := tok, isSending := false, wg := 0,
    acts := [], delivered := [], enqueued := [] }

/-- `Add` (main.go lines 59-68): append the item to the tail; if
`isSending` is false, set it, `wg.Add(1)` and spawn one `sendData`
goroutine (recorded as one `ActState.scheduled`). -/
def Buffer.Add {α : Type} (b : Buffer α) (item : α) : Buffer α :=
  if b.isSending then
    { b with data := b.data ++ [item], enqueued := b.enqueued ++ [item] }
  else
    { b with data := b.data ++ [item], enqueued := b.enqueued ++ [item],
             isSending := true, wg := b.wg + 1, acts := b.acts ++ [ActState.scheduled] }

/-- First critical section of `sendData` (main.go lines 73-81): if the
queue is empty, clear `isSending` and exit (the deferred `wg.Done`
decrements the counter); otherwise pop the head and start the
`sendToAPI` call outside the lock.  `l₁`/`l₂` locate the acting
goroutine inside `acts`. -/
def sendDataStart {α : Type} (b : Buffer α) (l₁ l₂ : List (ActState α)) : Buffer α :=
  match b.data with
  | [] => { b with acts := l₁ ++ l₂, isSending := false, wg := b.wg - 1 }
  | h :: t => { b with acts := l₁ ++ ActState.sending h :: l₂, data := t }

/-- End of a `sendData` activation (main.go lines 83-93): the
`sendToAPI item` call returns with outcome `r` (logged), then under the
lock either `isSending` is cleared (queue empty) or one successor
goroutine is spawned after `wg.Add(1)`; the deferred `wg.Done` runs in
both cases (`wg + 1 - 1` mirrors Add-then-Done on the nonempty path). -/
def sendDataFinish {α : Type} (b : Buffer α) (l₁ l₂ : List (ActState α)) (item : α)
    (r : SendResult) : Buffer α :=
  match b.data with
  | [] =>
    { b with acts := l₁ ++ l₂, isSending := false, wg := b.wg - 1,
             delivered := b.delivered ++ [(item, r)] }
  | _ :: _ =>
    { b with acts := l₁ ++ ActState.scheduled :: l₂, wg := b.wg + 1 - 1,
             delivered := b.delivered ++ [(item, r)] }

/-- One atomic step of the system: an `Add` call by any producer, or a
live goroutine executing one of its two critical sections.  The
interleaving of producers and activations is arbitrary; the `sendToAPI`
outcome `r` is arbitrary (the network is adversarial). -/
inductive Step {α : Type} : Buffer α → Buffer α → Prop
  | add (b : Buffer α) (item : α) : Step b (b.Add item)
  | start (b : Buffer α) (l₁ l₂ : List (ActState α))
      (hacts : b.acts = l₁ ++ ActState.scheduled :: l₂) :
      Step b (sendDataStart b l₁ l₂)
  | finish (b : Buffer α) (l₁ l₂ : List (ActState α)) (item : α) (r : SendResult)
      (hacts : b.acts = l₁ ++ ActState.sending item :: l₂) :
      Step b (sendDataFinish b l₁ l₂ item r)

/-- States reachable from a freshly constructed buffer by any
interleaving of steps. -/
def Reachable {α : Type} (b : Buffer α) : Prop :=
  ∃ apiURL tok : String, Relation.ReflTransGen Step (NewBuffer α apiURL tok) b

/-- The items whose `sendToAPI` call is currently outstanding. -/
def inflight {α : Type} (b : Buffer α) : List α :=
  b.acts.filterMap fun a => match a with
    | ActState.scheduled => none
    | ActState.sending h => some h

/-- Inductive invariant of the dispatcher: at most one live activation;
`isSending` holds exactly while one does; the WaitGroup counter equals
the number of live activations; the flag is only down when the queue is
empty; and the enqueue log splits as delivered-then-in-flight-then-queued. -/
def BufInv {α : Type} (b : Buffer α) : Prop :=
  b.acts.length ≤ 1 ∧
  (b.isSending = true ↔ b.acts ≠ []) ∧
  b.wg = b.acts.length ∧
  (b.isSending = false → b.data = []) ∧
  b.enqueued = b.delivered.map Prod.fst ++ inflight b ++ b.data

/-- Everything the network did during one `sendToAPI` call, as seen by
the code's five checks: `http.NewRequest` error, `client.Do` error,
`ioutil.ReadAll` error, HTTP status code, whether `json.Unmarshal` into
`APIResponse` succeeded, and the decoded `STATUS` field. -/
structure HttpExchange : Type where
  reqErr : Bool
  transportErr : Bool
  readErr : Bool
  statusCode : Nat
  decodeOk : Bool
  statusField : String
deriving DecidableEq

/-- `sendToAPI`'s control flow (main.go lines 96-137): the five
early-return checks in source order — request construction, transport,
body read, JSON decode, then the status-code comparison — and success
last. -/
def sendToAPI (e : HttpExchange) : SendResult :=
  if e.reqErr then SendResult.requestBuildError
  else if e.transportErr then SendResult.transportError
  else if e.readErr then SendResult.responseReadError
  else if e.decodeOk = false then SendResult.decodeError
  else if e.statusCode ≠ 200 then SendResult.nonSuccessStatus e.statusCode
  else SendResult.success

/-- A delivery is failed exactly when it is not the success outcome. -/
def SendResult.failed : SendResult → Bool
  | SendResult.success => false
  | _ => true

/-- Uppercase hexadecimal digit, as Go's `url` package emits in
percent-escapes. -/
def upperHexDigit (n : Nat) : Char :=
  if n < 10 then Char.ofNat (48 + n) else Char.ofNat (55 + n)

/-- UTF-8 encoding of one character; Go strings are byte sequences and
`url.QueryEscape` walks them byte by byte. -/
def utf8Bytes (c : Char) : List Nat :=
  let n := c.toNat
  if n < 0x80 then [n]
  else if n < 0x800 then [0xC0 + n / 64, 0x80 + n % 64]
  else if n < 0x10000 then [0xE0 + n / 4096, 0x80 + n / 64 % 64, 0x80 + n % 64]
  else [0xF0 + n / 262144, 0x80 + n / 4096 % 64, 0x80 + n / 64 % 64, 0x80 + n % 64]

/-- The bytes Go's `shouldEscape` leaves untouched in a query component:
alphanumerics and `-`, `_`, `.`, `~`. -/
def isUnreservedByte (b : Nat) : Bool :=
  (48 ≤ b && b ≤ 57) || (65 ≤ b && b ≤ 90) || (97 ≤ b && b ≤ 122) ||
    b == 45 || b == 95 || b == 46 || b == 126

/-- One byte of `url.QueryEscape` output: space becomes `+`, unreserved
bytes pass through, all else becomes `%XX` with uppercase hex. -/
def escapeByte (b : Nat) : List Char :=
  if b == 32 then ['+']
  else if isUnreservedByte b then [Char.ofNat b]
  else ['%', upperHexDigit (b / 16), upperHexDigit (b % 16)]

/-- Go `url.QueryEscape`. -/
def queryEscape (s : String) : String :=
  String.mk ((s.data.flatMap utf8Bytes).flatMap escapeByte)

/-- Go `url.Values.Encode` applied to the `formData` that `sendToAPI`
builds from the item map (main.go lines 98-103): the map's key set is
sorted ascending, and each pair is emitted as `escapedKey=escapedValue`
joined by `&`.  The item map is represented as an association list with
pairwise-distinct keys (a Go map cannot repeat a key); since `Set` is
called once per key, the looked-up value is the pair's value. -/
def urlValuesEncode (l : List (String × String)) : String :=
  String.intercalate "&" (((l.map Prod.fst).mergeSort).map
    fun k => queryEscape k ++ "=" ++ queryEscape ((l.lookup k).getD ""))

/-- The request body `sendToAPI` posts (main.go line 103):
`formData.Encode()`. -/
def requestBody (data : List (String × String)) : String := urlValuesEncode data

/-- The HTTP request `sendToAPI` constructs (main.go lines 103-109). -/
structure APIRequest : Type where
  method : String
  requestURL : String
  body : String
  contentType : String
  authHeader : String
deriving DecidableEq

/-- `sendToAPI`'s request: POST to the buffer's URL, form-encoded body,
bearer-token authorization. -/
def sendToAPIRequest (apiURL tok : String) (data : List (String × String)) : APIRequest :=
  { method := "POST", requestURL := apiURL, body := requestBody data,
    contentType := "application/x-www-form-urlencoded",
    authHeader := "Bearer " ++ tok }

/-- A fresh buffer, used as a concrete base point for witness states. -/
def demoState0 : Buffer Nat := NewBuffer Nat "https://api.example/save" "secret"

/-- After one `Add 7`: item queued, one goroutine scheduled. -/
def demoState1 : Buffer Nat := demoState0.Add 7

/-- After that goroutine pops the head: `sendToAPI 7` outstanding. -/
def demoState2 : Buffer Nat := sendDataStart demoState1 [] []

/-- After the send returns successfully: queue empty, chain finished. -/
def demoState3 : Buffer Nat := sendDataFinish demoState2 [] [] 7 SendResult.success

/-- A mid-drain state: one send outstanding while one more item waits. -/
def busyState : Buffer Nat :=
  { data := [5], url := "https://api.example/save", token := "secret",
    isSending := true, wg := 1, acts := [ActState.sending 9],
    delivered := [], enqueued := [9, 5] }

/-- An exchange where only reading the response body fails while the
status is 200 and (hypothetically) the decode flag is set. -/
def readErrExchange : HttpExchange :=
  { reqErr := false, transportErr := false, readErr := true,
    statusCode := 200, decodeOk := true, statusField := "OK" }

/-- An exchange with a non-200 status whose body does not decode. -/
def failDecodeExchange : HttpExchange :=
  { reqErr := false, transportErr := false, readErr := false,
    statusCode := 404, decodeOk := false, statusField := "" }

theorem singleton_of_len_le_one {α : Type} {l₁ l₂ : List α} {x : α}
    (h : (l₁ ++ x :: l₂).length ≤ 1) : l₁ = [] ∧ l₂ = [] := by
  constructor <;> (cases l₁ <;> cases l₂ <;> simp_all)

theorem stepInv {α : Type} {b b' : Buffer α} (hs : Step b b') (hi : BufInv b) : BufInv b' := by
  obtain ⟨h1, h2, h3, h4, h5⟩ := hi
  cases hs with
  | add item =>
    by_cases hsend : b.isSending = true
    · have hne : b.acts ≠ [] := h2.mp hsend
      simp only [Buffer.Add, if_pos hsend]
      refine ⟨h1, by simpa using h2, h3, by simp [hsend], ?_⟩
      simp only [inflight] at h5 ⊢
      simp [h5]
    · have hq : b.data = [] := h4 (by simpa using hsend)
      have hacts : b.acts = [] := by
        by_contra hne
        exact hsend (h2.mpr hne)
      simp only [Buffer.Add, if_neg hsend]
      have h5' : b.enqueued = b.delivered.map Prod.fst := by
        simpa [inflight, hacts, hq] using h5
      refine ⟨by simp [hacts], by simp, by simp [h3, hacts], by simp, ?_⟩
      simp [inflight, hacts, hq, h5']
  | start l₁ l₂ hacts =>
    obtain ⟨he1, he2⟩ := singleton_of_len_le_one (hacts ▸ h1)
    subst he1; subst he2
    simp only [List.nil_append] at hacts
    have hsend : b.isSending = true := h2.mpr (by simp [hacts])
    have hwg : b.wg = 1 := by simp [h3, hacts]
    cases hq : b.data with
    | nil =>
      simp only [sendDataStart, hq]
      refine ⟨by simp, by simp, by simp [hwg], by simp [hq], ?_⟩
      simp only [inflight, hacts] at h5 ⊢
      simpa [hq] using h5
    | cons h t =>
      simp only [sendDataStart, hq]
      refine ⟨by simp, by simp [hsend], by simp [hwg], by simp [hsend], ?_⟩
      simp only [inflight, hacts] at h5 ⊢
      simp only [hq] at h5
      simpa using h5
  | finish l₁ l₂ item r hacts =>
    obtain ⟨he1, he2⟩ := singleton_of_len_le_one (hacts ▸ h1)
    subst he1; subst he2
    simp only [List.nil_append] at hacts
    have hsend : b.isSending = true := h2.mpr (by simp [hacts])
    have hwg : b.wg = 1 := by simp [h3, hacts]
    cases hq : b.data with
    | nil =>
      simp only [sendDataFinish, hq]
      refine ⟨by simp, by simp, by simp [hwg], by simp [hq], ?_⟩
      simp only [inflight, hacts] at h5 ⊢
      simp only [hq] at h5
      simpa using h5
    | cons x t =>
      simp only [sendDataFinish, hq]
      refine ⟨by simp, by simp [hsend], by simp [hwg], by simp [hsend], ?_⟩
      simp only [inflight, hacts] at h5 ⊢
      simp only [hq] at h5
      simp at h5 ⊢
      simp [h5, hq]

theorem newBufferInv {α : Type} (apiURL tok : String) : BufInv (NewBuffer α apiURL tok) := by
  refine ⟨by simp [NewBuffer], by simp [NewBuffer], by simp [NewBuffer], by simp [NewBuffer], ?_⟩
  simp [NewBuffer, inflight]

theorem reachableInv {α : Type} {b : Buffer α} (h : Reachable b) : BufInv b := by
  obtain ⟨u, t, h⟩ := h
  induction h with
  | refl => exact newBufferInv u t
  | tail _ hs ih => exact stepInv hs ih

theorem queryEscape_plain : queryEscape "abc" = "abc" := by decide

theorem queryEscape_reserved : queryEscape "a b&c" = "a+b%26c" := by decide

theorem lookup_eq_of_perm (k : String) {l₁ l₂ : List (String × String)}
    (hp : List.Perm l₁ l₂) :
    (l₁.map Prod.fst).Nodup → l₁.lookup k = l₂.lookup k := by
  induction hp with
  | nil => intro _; rfl
  | cons x h ih =>
    intro hn
    simp only [List.map_cons, List.nodup_cons] at hn
    by_cases hk : k == x.1
    · cases x; simp [List.lookup_cons, hk]
    · cases x; simp only [List.lookup_cons]
      simp at hk
      simp [hk, ih hn.2]
  | swap x y l =>
    intro hn
    simp only [List.map_cons, List.nodup_cons, List.mem_cons] at hn
    obtain ⟨a, va⟩ := x
    obtain ⟨c, vc⟩ := y
    simp only [List.lookup_cons]
    cases h1 : k == c <;> cases h2 : k == a <;> simp_all
  | trans h₁ h₂ ih₁ ih₂ =>
    intro hn
    rw [ih₁ hn, ih₂ (((h₁.map Prod.fst).nodup_iff).mp hn)]

theorem urlValuesEncode_perm {l₁ l₂ : List (String × String)}
    (hn : (l₁.map Prod.fst).Nodup) (hp : List.Perm l₁ l₂) :
    urlValuesEncode l₁ = urlValuesEncode l₂ := by
  have hkeys : (l₁.map Prod.fst).mergeSort = (l₂.map Prod.fst).mergeSort :=
    List.eq_of_perm_of_sorted
      ((List.mergeSort_perm _ _).trans ((hp.map Prod.fst).trans (List.mergeSort_perm _ _).symm))
      (List.sorted_mergeSort' _) (List.sorted_mergeSort' _)
  have hf : (fun k => queryEscape k ++ "=" ++ queryEscape ((l₁.lookup k).getD "")) =
      (fun k => queryEscape k ++ "=" ++ queryEscape ((l₂.lookup k).getD "")) := by
    funext k
    rw [lookup_eq_of_perm k hp hn]
  unfold urlValuesEncode
  rw [hkeys, hf]

theorem demoState0_reachable : Reachable demoState0 :=
  ⟨"https://api.example/save", "secret", Relation.ReflTransGen.refl⟩

theorem demoState1_reachable : Reachable demoState1 :=
  ⟨"https://api.example/save", "secret",
    Relation.ReflTransGen.single (Step.add demoState0 7)⟩

theorem demoState2_reachable : Reachable demoState2 :=
  ⟨"https://api.example/save", "secret",
    Relation.ReflTransGen.tail
      (Relation.ReflTransGen.single (Step.add demoState0 7))
      (Step.start demoState1 [] [] rfl)⟩

theorem demoState3_reachable : Reachable demoState3 :=
  ⟨"https://api.example/save", "secret",
    Relation.ReflTransGen.tail
      (Relation.ReflTransGen.tail
        (Relation.ReflTransGen.single (Step.add demoState0 7))
        (Step.start demoState1 [] [] rfl))
      (Step.finish demoState2 [] [] 7 SendResult.success rfl)⟩

/-- Claim C1: in every reachable state, the sequence of items handed to
`sendToAPI` (in invocation order) is an initial segment of the sequence
of items enqueued by `Add` (in enqueue order) — the k-th delivery is the
k-th enqueued item — and once no activation is live every enqueued item
has been delivered in exactly that order. -/
theorem c1_fifo_delivery_order {α : Type} {b : Buffer α} (h : Reachable b) :
    b.delivered.map Prod.fst = b.enqueued.take (b.delivered.map Prod.fst).length ∧
    (b.acts = [] → b.delivered.map Prod.fst = b.enqueued) := by
  obtain ⟨h1, h2, h3, h4, h5⟩ := reachableInv h
  constructor
  · rw [h5, List.append_assoc, List.take_left]
  · intro ha
    have hsend : b.isSending = false := by
      cases hv : b.isSending
      · rfl
      · exact absurd (h2.mp hv) (by simp [ha])
    have hdata := h4 hsend
    simp [h5, ha, hdata, inflight]

theorem c1_witness :
    Reachable demoState3 ∧
    (demoState3.delivered.map Prod.fst =
      demoState3.enqueued.take (demoState3.delivered.map Prod.fst).length ∧
    (demoState3.acts = [] → demoState3.delivered.map Prod.fst = demoState3.enqueued)) :=
  ⟨demoState3_reachable, c1_fifo_delivery_order demoState3_reachable⟩

/-- Claim C2: in every reachable state, under any interleaving of `Add`
calls, at most one drain activation is scheduled or running, and hence
at most one `sendToAPI` call is outstanding. -/
theorem c2_single_chain {α : Type} {b : Buffer α} (h : Reachable b) :
    b.acts.length ≤ 1 ∧ (inflight b).length ≤ 1 := by
  obtain ⟨h1, _, _, _, _⟩ := reachableInv h
  refine ⟨h1, ?_⟩
  have hle := List.length_filterMap_le (fun a : ActState α => match a with
    | ActState.scheduled => none
    | ActState.sending h => some h) b.acts
  simpa [inflight] using le_trans hle h1

theorem c2_witness :
    Reachable demoState2 ∧
    (demoState2.acts.length ≤ 1 ∧ (inflight demoState2).length ≤ 1) :=
  ⟨demoState2_reachable, c2_single_chain demoState2_reachable⟩

/-- Claim C3: in every reachable state every enqueued item is accounted
for exactly once — as delivered, in flight, or still queued — so no item
is delivered twice or requeued; in particular deliveries never exceed
enqueues, and once the chain has finished every enqueued item was handed
to `sendToAPI` exactly once (whatever each send's outcome was). -/
theorem c3_exactly_once {α : Type} [DecidableEq α] {b : Buffer α} (h : Reachable b) :
    (∀ x : α, b.enqueued.count x =
      (b.delivered.map Prod.fst).count x + (inflight b).count x + b.data.count x) ∧
    (∀ x : α, (b.delivered.map Prod.fst).count x ≤ b.enqueued.count x) ∧
    (b.acts = [] → b.delivered.map Prod.fst = b.enqueued) := by
  obtain ⟨h1, h2, h3, h4, h5⟩ := reachableInv h
  refine ⟨?_, ?_, ?_⟩
  · intro x
    rw [h5]
    simp [List.count_append]
    omega
  · intro x
    rw [h5]
    simp [List.count_append]
  · intro ha
    have hsend : b.isSending = false := by
      cases hv : b.isSending
      · rfl
      · exact absurd (h2.mp hv) (by simp [ha])
    have hdata := h4 hsend
    simp [h5, ha, hdata, inflight]

theorem c3_witness :
    Reachable demoState3 ∧
    ((∀ x : Nat, demoState3.enqueued.count x =
      (demoState3.delivered.map Prod.fst).count x + (inflight demoState3).count x +
        demoState3.data.count x) ∧
    (∀ x : Nat, (demoState3.delivered.map Prod.fst).count x ≤ demoState3.enqueued.count x) ∧
    (demoState3.acts = [] → demoState3.delivered.map Prod.fst = demoState3.enqueued)) :=
  ⟨demoState3_reachable, c3_exactly_once demoState3_reachable⟩

/-- Claim C4: when an activation's send completes with any outcome `r`,
the item is logged exactly once with that outcome, nothing is pushed
back onto the queue, the whole control state after the step is
independent of the outcome (failure is treated identically to success —
no retry, no halt), and when the queue is nonempty the successor
activation is scheduled regardless of the outcome, so the next item is
still delivered next. -/
theorem c4_failure_isolation {α : Type} (b : Buffer α) (l₁ l₂ : List (ActState α))
    (item : α) (r r' : SendResult) :
    (sendDataFinish b l₁ l₂ item r).delivered = b.delivered ++ [(item, r)] ∧
    (sendDataFinish b l₁ l₂ item r).data = b.data ∧
    (sendDataFinish b l₁ l₂ item r).acts = (sendDataFinish b l₁ l₂ item r').acts ∧
    (sendDataFinish b l₁ l₂ item r).isSending = (sendDataFinish b l₁ l₂ item r').isSending ∧
    (sendDataFinish b l₁ l₂ item r).wg = (sendDataFinish b l₁ l₂ item r').wg ∧
    (b.data ≠ [] → (sendDataFinish b l₁ l₂ item r).acts = l₁ ++ ActState.scheduled :: l₂) := by
  cases hq : b.data <;> simp [sendDataFinish, hq]

theorem c4_witness :
    busyState.data ≠ [] ∧
    (sendDataFinish busyState [] [] 9 SendResult.transportError).acts =
      [] ++ ActState.scheduled :: [] :=
  ⟨by decide,
    (c4_failure_isolation busyState [] [] 9 SendResult.transportError
      SendResult.success).2.2.2.2.2 (by decide)⟩

/-- Claim C5: `Add` appends the item to the tail of the queue, performs
no delivery (the `sendToAPI` log and the in-flight set are untouched),
leaves `isSending` set, and schedules exactly one drain activation with
a `wg.Add(1)` if and only if `isSending` was false; it is a total
function — there is no error path. -/
theorem c5_add_characterization {α : Type} (b : Buffer α) (item : α) :
    (b.Add item).data = b.data ++ [item] ∧
    (b.Add item).enqueued = b.enqueued ++ [item] ∧
    (b.Add item).delivered = b.delivered ∧
    inflight (b.Add item) = inflight b ∧
    (b.Add item).isSending = true ∧
    (b.Add item).acts =
      (if b.isSending = true then b.acts else b.acts ++ [ActState.scheduled]) ∧
    (b.Add item).wg = (if b.isSending = true then b.wg else b.wg + 1) := by
  by_cases hs : b.isSending = true <;> simp [Buffer.Add, hs, inflight]

/-- Claim C6: in every reachable state the WaitGroup counter equals the
number of scheduled-but-unfinished drain activations (each activation is
paired with exactly one increment at its scheduling and one decrement at
its exit), so the counter is zero exactly when no such activation
remains — which is when a caller blocked in `wg.Wait` is released. -/
theorem c6_completion_tracking {α : Type} {b : Buffer α} (h : Reachable b) :
    b.wg = b.acts.length ∧ (b.wg = 0 ↔ b.acts = []) := by
  obtain ⟨h1, h2, h3, h4, h5⟩ := reachableInv h
  refine ⟨h3, ?_⟩
  rw [h3]
  simp

theorem c6_witness :
    Reachable demoState1 ∧
    (demoState1.wg = demoState1.acts.length ∧ (demoState1.wg = 0 ↔ demoState1.acts = [])) :=
  ⟨demoState1_reachable, c6_completion_tracking demoState1_reachable⟩

/-- Claim C7 (amended): `sendToAPI` classifies a delivery as failed
exactly when request construction fails, the transport call fails, the
response body fails to read, the body fails to decode as the expected
JSON shape, or the HTTP status is not 200; the decoded `STATUS` field's
value is never inspected (two exchanges differing only in it get the
same classification). -/
theorem c7_failure_classification (e : HttpExchange) :
    ((sendToAPI e).failed = true ↔
      (e.reqErr = true ∨ e.transportErr = true ∨ e.readErr = true ∨
       e.decodeOk = false ∨ e.statusCode ≠ 200)) ∧
    (∀ v : String, sendToAPI { e with statusField := v } = sendToAPI e) := by
  obtain ⟨r, t, rd, sc, d, sf⟩ := e
  constructor
  · cases r <;> cases t <;> cases rd <;> cases d <;>
      by_cases hsc : sc = 200 <;> simp [sendToAPI, SendResult.failed, hsc]
  · intro v
    rfl

/-- Claim C7 counterexample: an exchange where only reading the response
body fails is classified as failed although none of the four listed
conditions (request construction, transport, non-200 status, decode)
holds, so the claim's "exactly when" list is incomplete. -/
theorem c7_counterexample :
    (sendToAPI readErrExchange).failed = true ∧
    ¬(readErrExchange.reqErr = true ∨ readErrExchange.transportErr = true ∨
      readErrExchange.statusCode ≠ 200 ∨ readErrExchange.decodeOk = false) := by
  decide

/-- Claim C9: the JSON decode is attempted before the status-code check:
a response whose body does not decode is reported as a decode error even
when its status is not 200 (the non-success status is never reported),
and the non-200 outcome is only ever produced when the body decoded
successfully. -/
theorem c9_decode_before_status :
    (∀ e : HttpExchange, e.reqErr = false → e.transportErr = false → e.readErr = false →
      e.decodeOk = false → e.statusCode ≠ 200 →
      sendToAPI e = SendResult.decodeError ∧
      (∀ c : Nat, sendToAPI e ≠ SendResult.nonSuccessStatus c)) ∧
    (∀ (e : HttpExchange) (c : Nat),
      sendToAPI e = SendResult.nonSuccessStatus c → e.decodeOk = true) := by
  constructor
  · intro e h1 h2 h3 h4 _
    simp [sendToAPI, h1, h2, h3, h4]
  · intro e c h
    obtain ⟨r, t, rd, sc, d, sf⟩ := e
    cases r <;> cases t <;> cases rd <;> cases d <;> simp_all [sendToAPI]

theorem c9_witness :
    failDecodeExchange.decodeOk = false ∧ failDecodeExchange.statusCode ≠ 200 ∧
    sendToAPI failDecodeExchange = SendResult.decodeError :=
  ⟨rfl, by decide,
    (c9_decode_before_status.1 failDecodeExchange rfl rfl rfl rfl (by decide)).1⟩

/-- Claim C8: an `Add` in a reachable state with `isSending` false (the
Dispatcher idle) schedules exactly one new drain activation — the live
set becomes exactly one scheduled goroutine, never zero and never two —
while an `Add` with `isSending` true schedules none. -/
theorem c8_idle_reactivation {α : Type} {b : Buffer α} (h : Reachable b) (item : α) :
    (b.isSending = false → (b.Add item).acts = [ActState.scheduled]) ∧
    (b.isSending = true → (b.Add item).acts = b.acts) := by
  obtain ⟨h1, h2, h3, h4, h5⟩ := reachableInv h
  constructor
  · intro hs
    have hacts : b.acts = [] := by
      by_contra hne
      exact absurd (h2.mpr hne) (by simp [hs])
    simp [Buffer.Add, hs, hacts]
  · intro hs
    simp [Buffer.Add, hs]

theorem c8_witness :
    Reachable demoState0 ∧ demoState0.isSending = false ∧
    (demoState0.Add 3).acts = [ActState.scheduled] :=
  ⟨demoState0_reachable, rfl,
    (c8_idle_reactivation demoState0_reachable 3).1 rfl⟩

/-- Claim C10: the request body `sendToAPI` posts is the URL-encoding of
the item's key/value pairs with the keys in ascending lexicographic
order, so for a map (pairwise-distinct keys) the body is a deterministic
function of the map's contents, independent of any insertion or
iteration order of the fields. -/
theorem c10_body_deterministic (apiURL tok : String) (l₁ l₂ : List (String × String))
    (hn : (l₁.map Prod.fst).Nodup) (hp : List.Perm l₁ l₂) :
    (sendToAPIRequest apiURL tok l₁).body = requestBody l₁ ∧
    requestBody l₁ = requestBody l₂ ∧
    List.Sorted (· ≤ ·) ((l₁.map Prod.fst).mergeSort) :=
  ⟨rfl, urlValuesEncode_perm hn hp, List.sorted_mergeSort' _⟩

theorem c10_witness :
    (([("b", "2"), ("a", "1")] : List (String × String)).map Prod.fst).Nodup ∧
    List.Perm ([("b", "2"), ("a", "1")] : List (String × String)) [("a", "1"), ("b", "2")] ∧
    requestBody [("b", "2"), ("a", "1")] = requestBody [("a", "1"), ("b", "2")] :=
  ⟨by decide, by decide,
    (c10_body_deterministic "https://api.example/save" "secret"
      [("b", "2"), ("a", "1")] [("a", "1"), ("b", "2")] (by decide) (by decide)).2.1⟩
